import Mathlib

/-!
# GTASceneSync IDE/IPL exporter: shallow embedding and verification

This file embeds the export logic of `GTASceneSync.py` (the GTASceneSync
Blender add-on, SA only) in Lean 4 and proves properties of it.

The embedded parts are the ones the verified properties depend on:

* the name-cleaning helpers `clean_name` and `clean_collection_name`
  (Python `re.sub` with the patterns `\.\d+$` resp. `\.dff$` with
  `re.IGNORECASE`);
* the id-allocation loop shared by `ExportAsIDE.execute` and
  `ExportAsIPL.generate_mapping` (a dict built in first-seen order,
  with a counter starting at the chosen start id);
* the record construction of `ExportAsIPL.write_ipl`, including the
  quaternion treatment (`off @ base` pre-multiplication and the
  sign flip on x and z);
* the control flow of both `execute` methods: the mesh filter, the
  empty-selection early cancel, the start-id fallback
  (`self.model_id or <scene value>`), and the sequence of `f.write`
  calls inside `with open(...)`.

Modelling notes, recorded where they matter:

* Blender objects are modelled as plain records (`SceneObject`): the
  object name, the object type string, the names of `users_collection`,
  the `ide_flags` property group, and the world translation and world
  rotation quaternion that `matrix_world.to_translation()` /
  `.to_quaternion()` extract. Floating point scalars are modelled as
  rationals.
* Python `re.sub(pat + "$", ...)` without `re.MULTILINE` matches at the
  very end of the string and also just before a final newline; both
  positions are modelled. Python `\d` and `re.IGNORECASE` cover some
  non-ASCII digits and cased letters; the model uses ASCII digits and
  ASCII case folding, which agree on every name the add-on handles.
* `mathutils.Euler(...).to_quaternion()` is host-library math; the IPL
  writer is modelled as receiving the resulting offset quaternion `off`
  as a parameter, and quaternion composition `@` is the Hamilton
  product, spelled out in `qmul`.
* File I/O is modelled by listing the successive `f.write` payloads; a
  fallible run (`run_writes`) is parameterised by an optional index of
  the first failing write, and the file contents left on disk are the
  concatenation of the writes that succeeded before it. An export whose
  early no-input check fires never opens the file, so its disk state
  is `none`.
* The IPL writer is modelled down to the record level (ids, names,
  constants, positions and quaternion components); its `f.write`
  sequence is one header write (comment plus `inst`), one write per
  record, and the `end` trailer, and its 6-decimal float rendering is
  display formatting the properties here do not depend on.
-/

/-! ## Name cleaning (`clean_name`, `clean_collection_name`) -/

/-- Drop the leading run of ASCII digits of a (reversed) character list. -/
def dropDigits : List Char → List Char
  | [] => []
  | c :: cs => if c.isDigit then dropDigits cs else c :: cs

/-- On a reversed character list, remove a trailing `.digits` suffix of the
original string (the Python pattern `\.\d+$` anchored at this position);
return the input unchanged when the pattern does not match. -/
def stripNumRev (cs : List Char) : List Char :=
  match cs with
  | c :: rest =>
    if c.isDigit then
      match dropDigits rest with
      | '.' :: rest₂ => rest₂
      | _ => cs
    else cs
  | [] => []

/-- Python `clean_name`: `re.sub(r"\.\d+$", "", name)` — remove a numeric
duplicate suffix such as `.003`; `$` also matches just before a final
newline. -/
def clean_name (s : String) : String :=
  match s.data.reverse with
  | '\n' :: rest => String.mk ((stripNumRev rest).reverse ++ ['\n'])
  | rev => String.mk (stripNumRev rev).reverse

/-- On a reversed character list, remove a trailing `.dff` (any letter
case) of the original string; return the input unchanged otherwise. -/
def stripDffRev (cs : List Char) : List Char :=
  match cs with
  | c₁ :: c₂ :: c₃ :: '.' :: rest =>
    if c₁.toLower = 'f' ∧ c₂.toLower = 'f' ∧ c₃.toLower = 'd' then rest else cs
  | _ => cs

/-- Python `clean_collection_name`: `re.sub(r"\.dff$", "", name,
flags=re.IGNORECASE)`; `$` also matches just before a final newline. -/
def clean_collection_name (s : String) : String :=
  match s.data.reverse with
  | '\n' :: rest => String.mk ((stripDffRev rest).reverse ++ ['\n'])
  | rev => String.mk (stripDffRev rev).reverse

/-! ## Data model -/

/-- Quaternion with rational components, in `mathutils` w-x-y-z order. -/
structure Quat where
  w : ℚ
  x : ℚ
  y : ℚ
  z : ℚ
deriving DecidableEq

/-- Hamilton product: `mathutils.Quaternion.__matmul__` (`off @ base`). -/
def qmul (a b : Quat) : Quat where
  w := a.w * b.w - a.x * b.x - a.y * b.y - a.z * b.z
  x := a.w * b.x + a.x * b.w + a.y * b.z - a.z * b.y
  y := a.w * b.y - a.x * b.z + a.y * b.w + a.z * b.x
  z := a.w * b.z + a.x * b.y - a.y * b.x + a.z * b.w

/-- The per-object `ide_flags` property group (`IDEFlagsProperties`). -/
structure IdeFlagsProps where
  texture_name : String
  render_distance : Int
  ide_flag : String
deriving DecidableEq

/-- A Blender object as the exporters read it: name, `type`, the names of
`users_collection`, the `ide_flags` group, and the world translation and
world rotation extracted from `matrix_world`. -/
structure SceneObject where
  name : String
  objType : String
  users_collection : List String
  ide_flags : IdeFlagsProps
  posX : ℚ
  posY : ℚ
  posZ : ℚ
  quat : Quat
deriving DecidableEq

/-- The shared per-object name resolution, written identically in both
exporters: `clean_collection_name(coll.name) if coll else
clean_name(obj.name)` where `coll = obj.users_collection[0] if
obj.users_collection else None`. -/
def base_name (o : SceneObject) : String :=
  match o.users_collection.head? with
  | some c => clean_collection_name c
  | none => clean_name o.name

/-- The IPL exporter additionally applies `name or 'Unnamed'` (lines 115
and 135): an empty resolved name becomes the placeholder. The IDE
exporter does not do this. -/
def ipl_name (o : SceneObject) : String :=
  let n := base_name o
  if n = "" then "Unnamed" else n

/-! ## Association-list primitives

Python dicts preserve insertion order; each exporter builds one by
appending fresh keys. They are modelled as association lists with
first-match lookup. -/

/-- Lookup modelling `d.get(k)` / `k in d` on an insertion-ordered dict. -/
def alookup {β : Type} (key : String) : List (String × β) → Option β
  | [] => none
  | (k, v) :: rest => if k = key then some v else alookup key rest

/-- Membership test on a plain list of names. -/
def amem (n : String) : List String → Bool
  | [] => false
  | m :: rest => if m = n then true else amem n rest

/-! ## The ID allocator

Both exporters run the same loop: walk the (filtered, ordered) objects,
resolve a name, and if the name is new bind it to the next counter
value. `allocate` is that loop at the level of the resolved name
sequence; the lemmas below connect it to both call sites. -/

def allocate_go : List String → Int → List (String × Int) → List (String × Int)
  | [], _, acc => acc
  | n :: rest, cur, acc =>
    if (alookup n acc).isSome then allocate_go rest cur acc
    else allocate_go rest (cur + 1) (acc ++ [(n, cur)])

/-- The ID allocator: sequential ids for canonical names in first-seen
order, counter starting at `startId`. -/
def allocate (names : List String) (startId : Int) : List (String × Int) :=
  allocate_go names startId []

/-- `ExportAsIPL.generate_mapping` (lines 109–119), with the start id
passed in (the method computes it as `self.model_id or
bpy.context.scene.gtass_model_id`, modelled by `ipl_start_id`). -/
def generate_mapping_go : List SceneObject → Int → List (String × Int) → List (String × Int)
  | [], _, mapping => mapping
  | o :: rest, cur, mapping =>
    if (alookup (ipl_name o) mapping).isSome then generate_mapping_go rest cur mapping
    else generate_mapping_go rest (cur + 1) (mapping ++ [(ipl_name o, cur)])

def generate_mapping (objs : List SceneObject) (startId : Int) : List (String × Int) :=
  generate_mapping_go objs startId []

/-- One value of the `unique` dict of `ExportAsIDE.execute`:
`(cur, props.texture_name, props.render_distance, props.ide_flag)`. -/
structure IdeEntry where
  mid : Int
  txd : String
  dist : Int
  flag : String
deriving DecidableEq

/-- The `unique`-building loop of `ExportAsIDE.execute` (lines 60–66).
Note: no `or 'Unnamed'` fallback here, unlike the IPL side. -/
def ide_unique_go : List SceneObject → Int → List (String × IdeEntry) → List (String × IdeEntry)
  | [], _, unique => unique
  | o :: rest, cur, unique =>
    if (alookup (base_name o) unique).isSome then ide_unique_go rest cur unique
    else ide_unique_go rest (cur + 1)
      (unique ++ [(base_name o,
        ⟨cur, o.ide_flags.texture_name, o.ide_flags.render_distance, o.ide_flags.ide_flag⟩)])

def ide_unique (objs : List SceneObject) (startId : Int) : List (String × IdeEntry) :=
  ide_unique_go objs startId []

/-- The IDE exporter's name-to-id assignment, read off its `unique` dict. -/
def ideIdMap (objs : List SceneObject) (startId : Int) : List (String × Int) :=
  (ide_unique objs startId).map (fun kv => (kv.1, kv.2.mid))

/-! ## Start-id fallback -/

/-- `ExportAsIDE.execute` line 53: `self.model_id or
getattr(context.scene, "gtass_model_id", 4542)`. `none` models a scene
without the attribute. -/
def ide_start_id (model_id : Int) (scene_id : Option Int) : Int :=
  if model_id ≠ 0 then model_id else scene_id.getD 4542

/-- `ExportAsIPL.generate_mapping` line 110: `self.model_id or
bpy.context.scene.gtass_model_id`. -/
def ipl_start_id (model_id : Int) (scene_id : Int) : Int :=
  if model_id ≠ 0 then model_id else scene_id

/-! ## IDE execute: writes, failure model, outcome -/

/-- One IDE record line:
`f"{mid}, {name}, {txd}, {dist}, {flag}\n"`. -/
def ide_line (mid : Int) (nm txd : String) (dist : Int) (flag : String) : String :=
  toString mid ++ ", " ++ nm ++ ", " ++ txd ++ ", " ++ toString dist ++ ", " ++ flag ++ "\n"

/-- The successive `f.write` payloads of `ExportAsIDE.execute`: the
header, one line per `unique` entry, the trailer. -/
def ide_writes (unique : List (String × IdeEntry)) : List String :=
  "objs\n" :: ((unique.map fun kv => ide_line kv.2.mid kv.1 kv.2.txd kv.2.dist kv.2.flag)
    ++ ["end\n"])

/-- Run a sequence of writes against a stream that fails (raises) at the
write of index `failAt`, if any: result is the content on disk and
whether all writes succeeded. Each write is atomic in this model. -/
def run_writes (ws : List String) (failAt : Option Nat) : String × Bool :=
  match failAt with
  | none => (String.join ws, true)
  | some k => if ws.length ≤ k then (String.join ws, true) else (String.join (ws.take k), false)

/-- Operator result: `{'FINISHED'}` or `{'CANCELLED'}`. -/
inductive ExecStatus where
  | finished
  | cancelled
deriving DecidableEq

/-- Outcome of one IDE export invocation: the operator result, the
normalized target path (`none` when the early cancel fired before path
normalization), and the file contents left on disk (`none` when the
file was never opened). -/
structure IdeOutcome where
  status : ExecStatus
  path : Option String
  disk : Option String
deriving DecidableEq

/-- Case-insensitive test for a trailing `.ide`
(`self.filepath.lower().endswith('.ide')`). -/
def pathEndsWithIde (p : String) : Bool :=
  match p.data.reverse with
  | e :: d :: i :: '.' :: _ => e.toLower == 'e' && d.toLower == 'd' && i.toLower == 'i'
  | _ => false

/-- `ExportAsIDE.execute` (lines 44–75): filter to meshes, cancel on an
empty selection before touching the path or the file, normalize the
extension, pick the start id, build `unique`, and stream the writes;
an exception mid-write reports an error and cancels, leaving on disk
whatever was already written. -/
def ide_execute (selected : List SceneObject) (filepath : String) (model_id : Int)
    (scene_id : Option Int) (failAt : Option Nat) : IdeOutcome :=
  match selected.filter (fun o => o.objType == "MESH") with
  | [] => ⟨ExecStatus.cancelled, none, none⟩
  | o :: rest =>
    let path := if pathEndsWithIde filepath then filepath else filepath ++ ".ide"
    let ws := ide_writes (ide_unique (o :: rest) (ide_start_id model_id scene_id))
    let r := run_writes ws failAt
    ⟨if r.2 then ExecStatus.finished else ExecStatus.cancelled, some path, some r.1⟩

/-! ## IPL execute: records and outcome -/

/-- One `inst` record of `write_ipl` (line 137): id, name, the constant
`inter = 0`, position, transformed quaternion, the constant `lod = -1`. -/
structure IplRecord where
  mid : Int
  nm : String
  inter : Int
  posX : ℚ
  posY : ℚ
  posZ : ℚ
  rx : ℚ
  ry : ℚ
  rz : ℚ
  rw : ℚ
  lod : Int
deriving DecidableEq

/-- `ExportAsIPL.write_ipl` (lines 121–140) at record level. `offQuat`
stands for `mathutils.Euler(self.default_rotation,'XYZ').to_quaternion()`;
when `apply_default_rotation` is set the object quaternion is
pre-multiplied (`base = off @ base`), then x and z are negated. -/
def write_ipl (objs : List SceneObject) (mapping : List (String × Int))
    (applyDefault : Bool) (offQuat : Quat) : List IplRecord :=
  objs.map fun obj =>
    let base := if applyDefault then qmul offQuat obj.quat else obj.quat
    let nm := ipl_name obj
    { mid := (alookup nm mapping).getD (-1)
      nm := nm
      inter := 0
      posX := obj.posX
      posY := obj.posY
      posZ := obj.posZ
      rx := -base.x
      ry := base.y
      rz := -base.z
      rw := base.w
      lod := -1 }

/-- One `f.write` call of `write_ipl`: the header comment plus `inst`
line (emitted as a single write, line 125), one record line per object
(line 137), or the `end` line (line 140). A record stands for its
formatted line; the 6-decimal float rendering is display formatting the
verified properties do not depend on. -/
inductive IplWrite where
  | header
  | record (r : IplRecord)
  | trailer
deriving DecidableEq

/-- The successive `f.write` payloads of `ExportAsIPL.write_ipl`
(lines 121–140). -/
def ipl_writes (objs : List SceneObject) (mapping : List (String × Int))
    (applyDefault : Bool) (offQuat : Quat) : List IplWrite :=
  IplWrite.header ::
    ((write_ipl objs mapping applyDefault offQuat).map IplWrite.record ++ [IplWrite.trailer])

/-- Run the IPL write sequence against a stream that fails (raises) at
the write of index `failAt`, if any: result is the writes left on disk
and whether all writes succeeded. Each write is atomic in this model. -/
def run_ipl_writes (ws : List IplWrite) (failAt : Option Nat) : List IplWrite × Bool :=
  match failAt with
  | none => (ws, true)
  | some k => if ws.length ≤ k then (ws, true) else (ws.take k, false)

/-- Outcome of one IPL export invocation: operator result and the write
sequence left on disk (`none` when the file was never opened). -/
structure IplOutcome where
  status : ExecStatus
  disk : Option (List IplWrite)
deriving DecidableEq

/-- `ExportAsIPL.execute` (lines 142–156): filter to meshes, cancel on an
empty selection before the path is validated or the file opened,
otherwise build the mapping (before the `try`, it is pure) and stream
the writes of `write_ipl`; an exception mid-write reports an error and
cancels, leaving on disk whatever was already written. -/
def ipl_execute (selected : List SceneObject) (model_id : Int) (scene_id : Int)
    (applyDefault : Bool) (offQuat : Quat) (failAt : Option Nat) : IplOutcome :=
  match selected.filter (fun o => o.objType == "MESH") with
  | [] => ⟨ExecStatus.cancelled, none⟩
  | o :: rest =>
    let mapping := generate_mapping (o :: rest) (ipl_start_id model_id scene_id)
    let r := run_ipl_writes (ipl_writes (o :: rest) mapping applyDefault offQuat) failAt
    ⟨if r.2 then ExecStatus.finished else ExecStatus.cancelled, some r.1⟩

/-! ## Specification-side descriptions

These definitions restate, in the spec's words, the shapes the theorems
compare the code against: the distinct names in first-seen order, the
gapless id run, and the position of a name's first occurrence. -/

/-- Distinct names in first-seen order (names already in `seen` skipped). -/
def firstSeen_go (seen : List String) : List String → List String
  | [] => []
  | n :: rest =>
    if amem n seen then firstSeen_go seen rest
    else n :: firstSeen_go (seen ++ [n]) rest

/-- The distinct members of `names` in first-seen order. -/
def firstSeen (names : List String) : List String :=
  firstSeen_go [] names

/-- Names paired with consecutive ids starting at `cur`. -/
def buildFrom : List String → Int → List (String × Int)
  | [], _ => []
  | n :: rest, cur => (n, cur) :: buildFrom rest (cur + 1)

/-- The run of consecutive integers `s, s+1, ..., s+n-1`. -/
def intRange (s : Int) : Nat → List Int
  | 0 => []
  | k + 1 => s :: intRange (s + 1) k

/-- Index of the first occurrence of `n` (length if absent). -/
def idxOf (n : String) : List String → Nat
  | [] => 0
  | m :: rest => if m = n then 0 else idxOf n rest + 1

/-! ## Concrete fixtures used by witnesses and counterexamples -/

/-- A mesh object named `Wall.003`, in no collection, default attributes. -/
def wallObj : SceneObject :=
  ⟨"Wall.003", "MESH", [], ⟨"generic", 299, "0"⟩, 0, 0, 0, ⟨1, 0, 0, 0⟩⟩

/-- Same name and collection as `wallObj`, every other field different. -/
def wallObjMoved : SceneObject :=
  ⟨"Wall.003", "MESH", [], ⟨"rocks", 500, "4"⟩, 5, 6, 7, ⟨0, 1, 0, 0⟩⟩

/-- A mesh object whose name `.003` cleans to the empty string and which
belongs to no collection. -/
def dotObj : SceneObject :=
  ⟨".003", "MESH", [], ⟨"generic", 299, "0"⟩, 0, 0, 0, ⟨1, 0, 0, 0⟩⟩

/-- A mesh object in collection `House.DFF`. -/
def houseObj : SceneObject :=
  ⟨"Cube.001", "MESH", ["House.DFF"], ⟨"generic", 299, "0"⟩, 0, 0, 0, ⟨1, 0, 0, 0⟩⟩

/-- A non-mesh object: filtered out by both exporters. -/
def cameraObj : SceneObject :=
  ⟨"Camera", "CAMERA", [], ⟨"generic", 299, "0"⟩, 0, 0, 0, ⟨1, 0, 0, 0⟩⟩

/-- The placement record the IPL exporter emits for `wallObj` at start
id 100. -/
def wallRecord : IplRecord :=
  ⟨100, "Wall", 0, 0, 0, 0, 0, 0, 0, 1, -1⟩

/-! ## Helper lemmas -/

theorem amem_append (n : String) (l₁ l₂ : List String) :
    amem n (l₁ ++ l₂) = (amem n l₁ || amem n l₂) := by
  induction l₁ with
  | nil => simp [amem]
  | cons m rest ih => by_cases h : m = n <;> simp [amem, h, ih]

theorem amem_iff_mem (n : String) (l : List String) : amem n l = true ↔ n ∈ l := by
  induction l with
  | nil => simp [amem]
  | cons m rest ih =>
    by_cases h : m = n
    · simp [amem, h]
    · simp only [amem, h, if_false, ih, List.mem_cons]
      constructor
      · exact fun hm => Or.inr hm
      · rintro (rfl | hm)
        · exact absurd rfl h
        · exact hm

theorem alookup_isSome {β : Type} (n : String) (l : List (String × β)) :
    (alookup n l).isSome = amem n (l.map Prod.fst) := by
  induction l with
  | nil => rfl
  | cons kv rest ih =>
    obtain ⟨k, v⟩ := kv
    by_cases h : k = n <;> simp [alookup, amem, h, ih]

theorem alookup_proj (n : String) (l : List (String × IdeEntry)) :
    alookup n (l.map (fun kv => (kv.1, kv.2.mid))) = (alookup n l).map (fun e => e.mid) := by
  induction l with
  | nil => rfl
  | cons kv rest ih =>
    obtain ⟨k, v⟩ := kv
    by_cases h : k = n <;> simp [alookup, h, ih]

theorem allocate_go_eq (names : List String) : ∀ (cur : Int) (acc : List (String × Int)),
    allocate_go names cur acc
      = acc ++ buildFrom (firstSeen_go (acc.map Prod.fst) names) cur := by
  induction names with
  | nil => intro cur acc; simp [allocate_go, firstSeen_go, buildFrom]
  | cons n rest ih =>
    intro cur acc
    by_cases h : (alookup n acc).isSome = true
    · have hm : amem n (acc.map Prod.fst) = true := by rw [← alookup_isSome]; exact h
      simp [allocate_go, h, firstSeen_go, hm, ih]
    · have hm : amem n (acc.map Prod.fst) = false := by
        rw [← alookup_isSome]
        exact Bool.not_eq_true _ ▸ eq_false_of_ne_true h
      simp [allocate_go, h, firstSeen_go, hm, ih, buildFrom, List.map_append]

theorem allocate_eq (names : List String) (s : Int) :
    allocate names s = buildFrom (firstSeen names) s := by
  simpa [allocate, firstSeen] using allocate_go_eq names s []

theorem buildFrom_map_fst (l : List String) : ∀ c, (buildFrom l c).map Prod.fst = l := by
  induction l with
  | nil => intro c; rfl
  | cons n rest ih => intro c; simp [buildFrom, ih]

theorem buildFrom_map_snd (l : List String) : ∀ c, (buildFrom l c).map Prod.snd = intRange c l.length := by
  induction l with
  | nil => intro c; rfl
  | cons n rest ih => intro c; simp [buildFrom, intRange, ih]

theorem alookup_buildFrom (l : List String) : ∀ (n : String) (c : Int), amem n l = true →
    alookup n (buildFrom l c) = some (c + (idxOf n l : Int)) := by
  induction l with
  | nil => intro n c h; simp [amem] at h
  | cons m rest ih =>
    intro n c h
    by_cases hm : m = n
    · simp [buildFrom, alookup, hm, idxOf]
    · have h' : amem n rest = true := by simpa [amem, hm] using h
      rw [show buildFrom (m :: rest) c = (m, c) :: buildFrom rest (c + 1) from rfl]
      rw [show alookup n ((m, c) :: buildFrom rest (c + 1)) =
        alookup n (buildFrom rest (c + 1)) by simp [alookup, hm]]
      rw [ih n (c + 1) h']
      congr 1
      simp [idxOf, hm]
      omega

theorem amem_firstSeen_go_of_seen (names : List String) : ∀ (seen : List String) (n : String),
    amem n seen = true → amem n (firstSeen_go seen names) = false := by
  induction names with
  | nil => intro seen n _; rfl
  | cons m rest ih =>
    intro seen n h
    by_cases hm : amem m seen = true
    · simp [firstSeen_go, hm, ih seen n h]
    · have hmn : m ≠ n := by
        rintro rfl
        exact hm h
      simp [firstSeen_go, hm, amem, hmn, ih (seen ++ [m]) n (by simp [amem_append, h])]

theorem mem_of_mem_firstSeen_go (names : List String) : ∀ seen n,
    amem n (firstSeen_go seen names) = true → amem n names = true := by
  induction names with
  | nil => intro seen n h; simp [firstSeen_go, amem] at h
  | cons m rest ih =>
    intro seen n h
    by_cases hm : amem m seen = true
    · have := ih seen n (by simpa [firstSeen_go, hm] using h)
      by_cases hmn : m = n <;> simp [amem, hmn, this]
    · by_cases hmn : m = n
      · simp [amem, hmn]
      · have h' : amem n (firstSeen_go (seen ++ [m]) rest) = true := by
          simpa [firstSeen_go, hm, amem, hmn] using h
        simp [amem, hmn, ih _ n h']

theorem amem_firstSeen_go (names : List String) : ∀ seen n, amem n names = true →
    amem n seen = false → amem n (firstSeen_go seen names) = true := by
  induction names with
  | nil => intro seen n h _; simp [amem] at h
  | cons m rest ih =>
    intro seen n h hs
    by_cases hmn : m = n
    · subst hmn
      simp [firstSeen_go, hs, amem]
    · have h' : amem n rest = true := by simpa [amem, hmn] using h
      by_cases hm : amem m seen = true
      · simp [firstSeen_go, hm, ih seen n h' hs]
      · simp [firstSeen_go, hm, amem, hmn,
          ih (seen ++ [m]) n h' (by simp [amem_append, hs, amem, hmn])]

theorem idxOf_lt_length (l : List String) : ∀ n, amem n l = true → idxOf n l < l.length := by
  induction l with
  | nil => intro n h; simp [amem] at h
  | cons m rest ih =>
    intro n h
    by_cases hm : m = n
    · simp [idxOf, hm]
    · have h' : amem n rest = true := by simpa [amem, hm] using h
      have := ih n h'
      simp [idxOf, hm]
      omega

theorem firstSeen_go_nodup (names : List String) : ∀ seen, (firstSeen_go seen names).Nodup := by
  induction names with
  | nil => intro seen; simp [firstSeen_go]
  | cons m rest ih =>
    intro seen
    by_cases hm : amem m seen = true
    · simpa [firstSeen_go, hm] using ih seen
    · rw [show firstSeen_go seen (m :: rest)
        = m :: firstSeen_go (seen ++ [m]) rest by simp [firstSeen_go, hm]]
      rw [List.nodup_cons]
      refine ⟨fun hmem => ?_, ih (seen ++ [m])⟩
      have ht : amem m (firstSeen_go (seen ++ [m]) rest) = true := (amem_iff_mem _ _).mpr hmem
      have hf : amem m (firstSeen_go (seen ++ [m]) rest) = false :=
        amem_firstSeen_go_of_seen rest (seen ++ [m]) m (by simp [amem_append, amem])
      rw [hf] at ht
      exact Bool.false_ne_true ht

theorem generate_mapping_go_eq (objs : List SceneObject) : ∀ cur acc,
    generate_mapping_go objs cur acc = allocate_go (objs.map ipl_name) cur acc := by
  induction objs with
  | nil => intro cur acc; rfl
  | cons o rest ih =>
    intro cur acc
    by_cases h : (alookup (ipl_name o) acc).isSome = true <;>
      simp [generate_mapping_go, allocate_go, h, ih]

theorem generate_mapping_eq (objs : List SceneObject) (s : Int) :
    generate_mapping objs s = allocate (objs.map ipl_name) s :=
  generate_mapping_go_eq objs s []

theorem ide_unique_go_proj (objs : List SceneObject) : ∀ cur (acc : List (String × IdeEntry)),
    (ide_unique_go objs cur acc).map (fun kv => (kv.1, kv.2.mid))
      = allocate_go (objs.map base_name) cur (acc.map (fun kv => (kv.1, kv.2.mid))) := by
  induction objs with
  | nil => intro cur acc; rfl
  | cons o rest ih =>
    intro cur acc
    have hl : (alookup (base_name o) (acc.map (fun kv => (kv.1, kv.2.mid)))).isSome
        = (alookup (base_name o) acc).isSome := by
      rw [alookup_proj]
      cases alookup (base_name o) acc <;> rfl
    by_cases h : (alookup (base_name o) acc).isSome = true
    · simp [ide_unique_go, allocate_go, h, hl, ih]
    · simp [ide_unique_go, allocate_go, h, hl, ih, List.map_append]

theorem ideIdMap_eq (objs : List SceneObject) (s : Int) :
    ideIdMap objs s = allocate (objs.map base_name) s := by
  simpa [ideIdMap, ide_unique, allocate] using ide_unique_go_proj objs s []

theorem ipl_name_ne_empty (o : SceneObject) : ipl_name o ≠ "" := by
  by_cases h : base_name o = "" <;> simp [ipl_name, h]

theorem map_base_eq_map_ipl : ∀ (objs : List SceneObject),
    (∀ o ∈ objs, base_name o ≠ "") → objs.map base_name = objs.map ipl_name := by
  intro objs
  induction objs with
  | nil => intro _; rfl
  | cons o rest ih =>
    intro h
    have h₁ : base_name o ≠ "" := h o (by simp)
    have h₂ : rest.map base_name = rest.map ipl_name :=
      ih (fun o' ho' => h o' (by simp [ho']))
    simp [List.map_cons, h₂, show ipl_name o = base_name o by simp [ipl_name, h₁]]

/-! ## Claim theorems -/

/-- Claim C1: for every non-empty ordered sequence of canonical names and
every start id, the ID allocator assigns ids that form a strictly
increasing, gapless run of consecutive integers starting at the start id
(`intRange`), with exactly one id per distinct canonical name (the keys
are the distinct names in first-seen order, without duplicates), and a
repeated name looks up to the id of its first occurrence. -/
theorem allocate_first_seen_run (names : List String) (startId : Int) (_hne : names ≠ []) :
    (allocate names startId).map Prod.fst = firstSeen names ∧
    (firstSeen names).Nodup ∧
    (allocate names startId).map Prod.snd = intRange startId (firstSeen names).length ∧
    ∀ n, amem n names = true →
      alookup n (allocate names startId)
        = some (startId + (idxOf n (firstSeen names) : Int)) := by
  refine ⟨?_, ?_, ?_, ?_⟩
  · rw [allocate_eq, buildFrom_map_fst]
  · exact firstSeen_go_nodup names []
  · rw [allocate_eq, buildFrom_map_snd]
  · intro n hn
    rw [allocate_eq]
    exact alookup_buildFrom _ n startId (amem_firstSeen_go names [] n hn rfl)

/-- Witness for C1 on the concrete sequence `["a", "b", "a"]` at start
id 100: keys deduplicate in first-seen order and the repeated name keeps
the first id. -/
theorem allocate_first_seen_run_witness :
    (allocate ["a", "b", "a"] 100).map Prod.fst = ["a", "b"] ∧
    alookup "a" (allocate ["a", "b", "a"] 100) = some 100 := by
  have h := allocate_first_seen_run ["a", "b", "a"] 100 (by decide)
  exact ⟨h.1.trans (by decide), (h.2.2.2 "a" (by decide)).trans (by decide)⟩

/-- Claim C2 counterexample: for the single-object list `[dotObj]`
(object name `.003`, no collection, so the resolved name is empty) and
start id 4542, the IDE exporter's mapping binds the empty string while
the IPL exporter's mapping binds `Unnamed`; the two mappings are not
equal as functions. -/
theorem ide_ipl_mapping_mismatch :
    base_name dotObj = "" ∧
    ideIdMap [dotObj] 4542 = [("", 4542)] ∧
    generate_mapping [dotObj] 4542 = [("Unnamed", 4542)] ∧
    ideIdMap [dotObj] 4542 ≠ generate_mapping [dotObj] 4542 ∧
    alookup "" (ideIdMap [dotObj] 4542) ≠ alookup "" (generate_mapping [dotObj] 4542) := by
  decide

/-- Claim C2 (amended): provided no object's resolved base name is empty
(the only case where the IPL side substitutes `Unnamed` and the IDE side
does not), running the Definition and Placement exporters over the same
ordered object list with the same start id builds identical
name-to-id mappings. -/
theorem ide_ipl_maps_agree (objs : List SceneObject) (startId : Int)
    (h : ∀ o ∈ objs, base_name o ≠ "") :
    ideIdMap objs startId = generate_mapping objs startId := by
  rw [ideIdMap_eq, generate_mapping_eq, map_base_eq_map_ipl objs h]

/-- Witness for the amended C2 on a two-object list with non-empty
resolved names. -/
theorem ide_ipl_maps_agree_witness :
    ideIdMap [wallObj, houseObj] 4542 = generate_mapping [wallObj, houseObj] 4542 :=
  ide_ipl_maps_agree [wallObj, houseObj] 4542 (by decide)

/-- Claim C3: every emitted placement record's quaternion is obtained
from the object's world rotation by (1) pre-multiplying by the
default-rotation quaternion when the apply flag is set (Hamilton product
`off * base`), and (2) negating the x and z components while leaving y
and w unchanged. -/
theorem write_ipl_quaternion_transform (objs : List SceneObject)
    (mapping : List (String × Int)) (applyDefault : Bool) (offQuat : Quat) :
    (write_ipl objs mapping applyDefault offQuat).map (fun r => (r.rx, r.ry, r.rz, r.rw))
      = objs.map (fun o =>
          let b := if applyDefault then qmul offQuat o.quat else o.quat
          (-b.x, b.y, -b.z, b.w)) := by
  simp [write_ipl]

/-- Claim C4: when the mesh-filtered selection is empty, both exporters
cancel with the no-input warning before any file is opened, so nothing
is written to disk. -/
theorem empty_selection_no_output (selected : List SceneObject) (filepath : String)
    (model_id : Int) (ide_scene : Option Int) (ipl_scene : Int) (failAt : Option Nat)
    (applyDefault : Bool) (offQuat : Quat)
    (h : selected.filter (fun o => o.objType == "MESH") = []) :
    ide_execute selected filepath model_id ide_scene failAt
        = ⟨ExecStatus.cancelled, none, none⟩ ∧
    ipl_execute selected model_id ipl_scene applyDefault offQuat failAt
        = ⟨ExecStatus.cancelled, none⟩ := by
  constructor <;> simp [ide_execute, ipl_execute, h]

/-- Witness for C4: a selection holding only a camera object. -/
theorem empty_selection_no_output_witness :
    ide_execute [cameraObj] "scene" 4542 none none = ⟨ExecStatus.cancelled, none, none⟩ ∧
    ipl_execute [cameraObj] 4542 4542 false ⟨1, 0, 0, 0⟩ none = ⟨ExecStatus.cancelled, none⟩ :=
  empty_selection_no_output [cameraObj] "scene" 4542 none 4542 none false ⟨1, 0, 0, 0⟩
    (by decide)

/-- Claim C5 counterexample: exporting `[wallObj]` with a write failure
at write index 1 cancels with an error, yet the header written before
the failure (`objs\n`) remains on disk — a file that is neither absent
nor the complete well-formed output. -/
theorem write_failure_leaves_content_on_disk :
    (ide_execute [wallObj] "scene" 4542 none (some 1)).status = ExecStatus.cancelled ∧
    (ide_execute [wallObj] "scene" 4542 none (some 1)).disk = some "objs\n" ∧
    (ide_execute [wallObj] "scene" 4542 none none).disk
        = some "objs\n4542, Wall, generic, 299, 0\nend\n" ∧
    (some "objs\n" : Option String) ≠ none ∧
    ("objs\n" : String) ≠ "objs\n4542, Wall, generic, 299, 0\nend\n" := by
  decide

/-- Claim C5 (amended): for both exporters, when the no-input error
occurs nothing is written to disk; on a non-empty mesh selection a
fault-free run finishes and leaves the complete file on disk; and an
I/O failure at any write index cancels the export but leaves on disk
exactly the writes that preceded the failure — the partially written
file is not removed. -/
theorem export_write_failure_semantics (selected : List SceneObject) (filepath : String)
    (model_id : Int) (ide_scene : Option Int) (ipl_scene : Int)
    (applyDefault : Bool) (offQuat : Quat) :
    (selected.filter (fun o => o.objType == "MESH") = [] → ∀ failAt,
      (ide_execute selected filepath model_id ide_scene failAt).disk = none ∧
      (ipl_execute selected model_id ipl_scene applyDefault offQuat failAt).disk = none) ∧
    (selected.filter (fun o => o.objType == "MESH") ≠ [] →
      ((ide_execute selected filepath model_id ide_scene none).status
          = ExecStatus.finished ∧
        (ide_execute selected filepath model_id ide_scene none).disk
          = some (String.join (ide_writes (ide_unique
              (selected.filter (fun o => o.objType == "MESH"))
              (ide_start_id model_id ide_scene)))) ∧
        (ipl_execute selected model_id ipl_scene applyDefault offQuat none).status
            = ExecStatus.finished ∧
        (ipl_execute selected model_id ipl_scene applyDefault offQuat none).disk
          = some (ipl_writes (selected.filter (fun o => o.objType == "MESH"))
              (generate_mapping (selected.filter (fun o => o.objType == "MESH"))
                (ipl_start_id model_id ipl_scene)) applyDefault offQuat)) ∧
      (∀ k, k < (ide_writes (ide_unique (selected.filter (fun o => o.objType == "MESH"))
          (ide_start_id model_id ide_scene))).length →
        (ide_execute selected filepath model_id ide_scene (some k)).status
            = ExecStatus.cancelled ∧
        (ide_execute selected filepath model_id ide_scene (some k)).disk
          = some (String.join ((ide_writes (ide_unique
              (selected.filter (fun o => o.objType == "MESH"))
              (ide_start_id model_id ide_scene))).take k))) ∧
      (∀ k, k < (ipl_writes (selected.filter (fun o => o.objType == "MESH"))
          (generate_mapping (selected.filter (fun o => o.objType == "MESH"))
            (ipl_start_id model_id ipl_scene)) applyDefault offQuat).length →
        (ipl_execute selected model_id ipl_scene applyDefault offQuat (some k)).status
            = ExecStatus.cancelled ∧
        (ipl_execute selected model_id ipl_scene applyDefault offQuat (some k)).disk
          = some ((ipl_writes (selected.filter (fun o => o.objType == "MESH"))
              (generate_mapping (selected.filter (fun o => o.objType == "MESH"))
                (ipl_start_id model_id ipl_scene)) applyDefault offQuat).take k))) := by
  constructor
  · intro h failAt
    constructor <;> simp [ide_execute, ipl_execute, h]
  · intro hne
    obtain ⟨o, rest, hEq⟩ := List.exists_cons_of_ne_nil hne
    refine ⟨?_, ?_, ?_⟩
    · simp [ide_execute, ipl_execute, hEq, run_writes, run_ipl_writes]
    · intro k hk
      rw [hEq] at hk
      have hgt : ¬ ((ide_writes (ide_unique (o :: rest)
          (ide_start_id model_id ide_scene))).length ≤ k) := by omega
      simp [ide_execute, hEq, run_writes, hgt]
    · intro k hk
      rw [hEq] at hk
      have hgt : ¬ ((ipl_writes (o :: rest)
          (generate_mapping (o :: rest) (ipl_start_id model_id ipl_scene))
          applyDefault offQuat).length ≤ k) := by omega
      simp [ipl_execute, hEq, run_ipl_writes, hgt]

/-- Witness for the amended C5: the concrete failing runs of both
exporters on `[wallObj]` with the write at index 1 failing, obtained
through the amended theorem. -/
theorem export_write_failure_semantics_witness :
    (ide_execute [wallObj] "scene" 4542 none (some 1)).disk
        = some (String.join ((ide_writes (ide_unique
            ([wallObj].filter (fun o => o.objType == "MESH"))
            (ide_start_id 4542 none))).take 1)) ∧
    (ipl_execute [wallObj] 4542 4542 false ⟨1, 0, 0, 0⟩ (some 1)).status
        = ExecStatus.cancelled ∧
    (ipl_execute [wallObj] 4542 4542 false ⟨1, 0, 0, 0⟩ (some 1)).disk
        = some ((ipl_writes ([wallObj].filter (fun o => o.objType == "MESH"))
            (generate_mapping ([wallObj].filter (fun o => o.objType == "MESH"))
              (ipl_start_id 4542 4542)) false ⟨1, 0, 0, 0⟩).take 1) := by
  have h := export_write_failure_semantics [wallObj] "scene" 4542 none 4542 false ⟨1, 0, 0, 0⟩
  have h₂ := h.2 (by decide)
  exact ⟨(h₂.2.1 1 (by decide)).2, (h₂.2.2 1 (by decide)).1, (h₂.2.2 1 (by decide)).2⟩

/-- Claim C6 counterexample: for the object `.003` in no collection the
resolved name is empty; the IDE exporter allocates the id under the
empty string and emits a record with an empty name field (`4542, , ...`),
while only the IPL exporter substitutes the placeholder `Unnamed`. -/
theorem ide_missing_placeholder :
    base_name dotObj = "" ∧
    (ide_unique [dotObj] 4542).map Prod.fst = [""] ∧
    ide_writes (ide_unique [dotObj] 4542)
        = ["objs\n", "4542, , generic, 299, 0\n", "end\n"] ∧
    generate_mapping [dotObj] 4542 = [("Unnamed", 4542)] ∧
    ("" : String) ≠ "Unnamed" := by
  decide

/-- Claim C6 (amended): only the Placement (IPL) exporter substitutes the
placeholder `Unnamed` for an empty resolved name, and it does so both in
id allocation and in the emitted records, so no IPL mapping key and no
IPL record name is ever empty; the Definition (IDE) exporter performs no
such substitution. -/
theorem ipl_placeholder_substitution (objs : List SceneObject) (startId : Int)
    (mapping : List (String × Int)) (applyDefault : Bool) (offQuat : Quat) :
    (∀ o ∈ objs, base_name o = "" → ipl_name o = "Unnamed") ∧
    (∀ kv ∈ generate_mapping objs startId, kv.1 ≠ "") ∧
    (∀ r ∈ write_ipl objs mapping applyDefault offQuat, r.nm ≠ "") := by
  refine ⟨?_, ?_, ?_⟩
  · intro o _ h
    simp [ipl_name, h]
  · intro kv hkv
    have h₁ : kv.1 ∈ (buildFrom (firstSeen (objs.map ipl_name)) startId).map Prod.fst := by
      rw [generate_mapping_eq, allocate_eq] at hkv
      exact List.mem_map_of_mem Prod.fst hkv
    rw [buildFrom_map_fst] at h₁
    have h₂ : amem kv.1 (objs.map ipl_name) = true :=
      mem_of_mem_firstSeen_go (objs.map ipl_name) [] kv.1 ((amem_iff_mem _ _).mpr h₁)
    obtain ⟨o, _, heq⟩ := List.mem_map.mp ((amem_iff_mem _ _).mp h₂)
    rw [← heq]
    exact ipl_name_ne_empty o
  · intro r hr
    obtain ⟨o, _, rfl⟩ := List.mem_map.mp hr
    exact ipl_name_ne_empty o

/-- Witness for the amended C6 on the concrete empty-name object. -/
theorem ipl_placeholder_substitution_witness :
    ipl_name dotObj = "Unnamed" ∧ (("Unnamed", 4542) : String × Int).1 ≠ "" := by
  have h := ipl_placeholder_substitution [dotObj] 4542 [] false ⟨1, 0, 0, 0⟩
  exact ⟨h.1 dotObj (by decide) (by decide), h.2.1 ("Unnamed", 4542) (by decide)⟩

/-- Claim C7 counterexample: with a caller-supplied starting id of zero
and the scene-level start id set to 100, the base of allocation is 100,
not 4542 — also visible in the file an IDE export writes. -/
theorem zero_start_id_not_4542 :
    ide_start_id 0 (some 100) = 100 ∧
    ipl_start_id 0 100 = 100 ∧
    ((100 : Int) = 4542 → False) ∧
    (ide_execute [wallObj] "scene" 0 (some 100) none).disk
        = some "objs\n100, Wall, generic, 299, 0\nend\n" := by
  decide

/-- Claim C7 (amended): the base id is 4542 when the caller provides no
starting id (the operator property default is 4542), and when the caller
provides zero while the scene-level start id is at its default 4542 (or,
for the IDE exporter, the scene attribute is absent); a zero starting id
otherwise falls back to the scene-level value. -/
theorem start_id_fallback (sc : Option Int) (s : Int) :
    ide_start_id 4542 sc = 4542 ∧
    ipl_start_id 4542 s = 4542 ∧
    ide_start_id 0 none = 4542 ∧
    ide_start_id 0 (some 4542) = 4542 ∧
    ipl_start_id 0 4542 = 4542 ∧
    ide_start_id 0 (some s) = s ∧
    ipl_start_id 0 s = s := by
  norm_num [ide_start_id, ipl_start_id]

/-- Claim C8: the resolver cleans the ungrouped object name `Wall.003`
to `Wall`, and cleans a group named `House.dff` — with the suffix in any
letter case — to `House`. -/
theorem resolver_examples :
    clean_name "Wall.003" = "Wall" ∧
    base_name wallObj = "Wall" ∧
    clean_collection_name "House.dff" = "House" ∧
    clean_collection_name "House.dfF" = "House" ∧
    clean_collection_name "House.dFf" = "House" ∧
    clean_collection_name "House.dFF" = "House" ∧
    clean_collection_name "House.Dff" = "House" ∧
    clean_collection_name "House.DfF" = "House" ∧
    clean_collection_name "House.DFf" = "House" ∧
    clean_collection_name "House.DFF" = "House" ∧
    base_name houseObj = "House" := by
  decide

/-- Claim C9: the name resolver is a pure, deterministic function of the
object's name and group membership — two resolutions of an unmodified
object (equivalently, of any two objects agreeing on those two inputs)
yield the same canonical name; in this pure embedding the absence of
side effects and of input mutation holds by construction. -/
theorem resolver_deterministic (o₁ o₂ : SceneObject)
    (hn : o₁.name = o₂.name) (hc : o₁.users_collection = o₂.users_collection) :
    base_name o₁ = base_name o₂ ∧ ipl_name o₁ = ipl_name o₂ := by
  have hb : base_name o₁ = base_name o₂ := by
    unfold base_name
    rw [hn, hc]
  exact ⟨hb, by unfold ipl_name; rw [hb]⟩

/-- Witness for C9: two objects sharing name and collection but
differing in every attribute, position and rotation resolve alike. -/
theorem resolver_deterministic_witness :
    base_name wallObj = base_name wallObjMoved ∧
    ipl_name wallObj = ipl_name wallObjMoved :=
  resolver_deterministic wallObj wallObjMoved rfl rfl

/-- Claim C10: when the IPL record writer runs with the id mapping built
over the same object list, every record's name lookup succeeds — the
`-1` fallback of `mapping.get(nm, -1)` is never taken — and every
emitted id lies in the run from the start id to the start id plus the
number of distinct canonical names. -/
theorem ipl_ids_in_range (objs : List SceneObject) (startId : Int)
    (applyDefault : Bool) (offQuat : Quat) (r : IplRecord)
    (hr : r ∈ write_ipl objs (generate_mapping objs startId) applyDefault offQuat) :
    alookup r.nm (generate_mapping objs startId) = some r.mid ∧
    startId ≤ r.mid ∧
    r.mid < startId + ((firstSeen (objs.map ipl_name)).length : Int) := by
  obtain ⟨o, ho, rfl⟩ := List.mem_map.mp hr
  have hmem : amem (ipl_name o) (objs.map ipl_name) = true :=
    (amem_iff_mem _ _).mpr (List.mem_map_of_mem ipl_name ho)
  have hfs : amem (ipl_name o) (firstSeen (objs.map ipl_name)) = true :=
    amem_firstSeen_go (objs.map ipl_name) [] (ipl_name o) hmem rfl
  have hlk : alookup (ipl_name o) (generate_mapping objs startId)
      = some (startId + (idxOf (ipl_name o) (firstSeen (objs.map ipl_name)) : Int)) := by
    rw [generate_mapping_eq, allocate_eq]
    exact alookup_buildFrom _ _ _ hfs
  have hidx : idxOf (ipl_name o) (firstSeen (objs.map ipl_name))
      < (firstSeen (objs.map ipl_name)).length :=
    idxOf_lt_length _ _ hfs
  have hmid : (alookup (ipl_name o) (generate_mapping objs startId)).getD (-1)
      = startId + (idxOf (ipl_name o) (firstSeen (objs.map ipl_name)) : Int) := by
    rw [hlk]
    rfl
  refine ⟨?_, ?_, ?_⟩
  · show alookup (ipl_name o) (generate_mapping objs startId)
        = some ((alookup (ipl_name o) (generate_mapping objs startId)).getD (-1))
    rw [hlk]
    rfl
  · show startId ≤ (alookup (ipl_name o) (generate_mapping objs startId)).getD (-1)
    rw [hmid]
    omega
  · show (alookup (ipl_name o) (generate_mapping objs startId)).getD (-1)
        < startId + ((firstSeen (objs.map ipl_name)).length : Int)
    rw [hmid]
    omega

/-- Witness for C10 on the single-object export of `wallObj` at start
id 100: its record is looked up successfully with id 100. -/
theorem ipl_ids_in_range_witness :
    alookup wallRecord.nm (generate_mapping [wallObj] 100) = some wallRecord.mid ∧
    (100 : Int) ≤ wallRecord.mid ∧
    wallRecord.mid < 100 + ((firstSeen ([wallObj].map ipl_name)).length : Int) :=
  ipl_ids_in_range [wallObj] 100 false ⟨1, 0, 0, 0⟩ wallRecord (by decide)
